import Mathlib

/-
Verification development for the thread-safe bounded queue of
`src/thread_safe/queue.hpp` (namespace ThreadSafe, class Queue<T>).

The queue state and every operation are shallowly embedded below, translated
directly from the C++ source.  Machine integers (`std::size_t`, `uint32_t`)
are modelled as `Nat`: the only arithmetic performed on them is comparison
and container-length bookkeeping, which never overflows.  The single mutex
serialises all structural mutation, so operations are modelled as pure
functions on the whole queue state, and multi-threaded executions as
sequences of atomic operations.  Calls that never return (a wait whose
predicate can never become true, with the infinite timeout) and calls that
run into undefined behaviour (`std::deque::front` on an empty deque) are
distinguished from normal returns by the `Outcome` type.
-/

namespace TSQ

/-- Status of the queue (`Queue::Status`, queue.hpp lines 35-40). -/
inductive Status where
  | EMPTY
  | NORMAL
  | FULL
deriving DecidableEq, Repr

/-- Discard policy (`Queue::Discard`, queue.hpp lines 45-50). -/
inductive Discard where
  | DISCARD_OLDEST
  | DISCARD_NEWEST
  | NO_DISCARD
deriving DecidableEq, Repr

/-- Control policy (`Queue::Control`, queue.hpp lines 55-61). -/
inductive Control where
  | PUSH
  | POP
  | FULL_CONTROL
  | NO_CONTROL
deriving DecidableEq, Repr

/-- Queue settings (`Queue::Settings`, queue.hpp lines 66-71).
`size` is the capacity (maximum element count). -/
structure Settings where
  discard : Discard
  control : Control
  size : Nat
deriving DecidableEq, Repr

/-- `Queue::pushControllable` (queue.hpp lines 214-222). -/
def pushControllable (c : Control) : Bool :=
  if c = Control.FULL_CONTROL ∨ c = Control.PUSH then true else false

/-- `Queue::popControllable` (queue.hpp lines 224-232). -/
def popControllable (c : Control) : Bool :=
  if c = Control.FULL_CONTROL ∨ c = Control.POP then true else false

/-- The mutable state of a `Queue<T>`: the deque `m_queue`, the cached
`m_size` and `m_status`, and the two admission flags `m_open_push` and
`m_open_pop` (queue.hpp lines 125-133). -/
structure QueueState (A : Type) where
  settings : Settings
  queue : List A
  size : Nat
  status : Status
  openPushFlag : Bool
  openPopFlag : Bool
deriving DecidableEq, Repr

/-- The status computation of `Queue::updateStatus` (queue.hpp lines
354-367): EMPTY when the size is zero, otherwise FULL when the size has
reached the capacity, otherwise NORMAL.  It reads only the element count
and the configured capacity. -/
def derivedStatus (sz cap : Nat) : Status :=
  if sz ≤ 0 then Status.EMPTY
  else if sz ≥ cap then Status.FULL
  else Status.NORMAL

/-- `Queue::updateStatus` (queue.hpp lines 351-369): refresh `m_size` from
the deque and recompute `m_status` from it.  (The `m_wait.notify()` call has
no effect on the queue state.) -/
def updateStatus (s : QueueState A) : QueueState A :=
  { s with size := s.queue.length
         , status := derivedStatus s.queue.length s.settings.size }

/-- The constructor `Queue::Queue` (queue.hpp lines 145-157): both open
flags start `false` (member initialisers, lines 130-131) and a side that is
not controllable is set open. -/
def mkQueue (A : Type) (st : Settings) : QueueState A :=
  { settings := st
  , queue := []
  , size := 0
  , status := Status.EMPTY
  , openPushFlag := !pushControllable st.control
  , openPopFlag := !popControllable st.control }

/-- `Queue::openPush` (queue.hpp lines 234-243). -/
def openPush (s : QueueState A) : QueueState A :=
  if pushControllable s.settings.control then { s with openPushFlag := true } else s

/-- `Queue::closePush` (queue.hpp lines 245-254). -/
def closePush (s : QueueState A) : QueueState A :=
  if pushControllable s.settings.control then { s with openPushFlag := false } else s

/-- `Queue::openPop` (queue.hpp lines 256-265). -/
def openPop (s : QueueState A) : QueueState A :=
  if popControllable s.settings.control then { s with openPopFlag := true } else s

/-- `Queue::closePop` (queue.hpp lines 267-276). -/
def closePop (s : QueueState A) : QueueState A :=
  if popControllable s.settings.control then { s with openPopFlag := false } else s

/-- `Queue::pushWithLock` (queue.hpp lines 333-339): append at the back,
then `updateStatus`. -/
def pushWithLock (s : QueueState A) (elem : A) : QueueState A :=
  updateStatus { s with queue := s.queue ++ [elem] }

/-- `Queue::popWithLock` (queue.hpp lines 341-349): read the front element,
remove it, `updateStatus`, return it.  On an empty deque `front()` is
undefined behaviour, modelled as `none`. -/
def popWithLock (s : QueueState A) : Option (A × QueueState A) :=
  match s.queue with
  | [] => none
  | x :: rest => some (x, updateStatus { s with queue := rest })

/-- The predicate `closed_or_not_full_pred` captured inside
`Queue::waitToPush` (queue.hpp lines 286-293). -/
def pushWaitPred (s : QueueState A) : Bool :=
  if s.openPushFlag = false ∨ s.status ≠ Status.FULL then true else false

/-- The predicate `closed_or_not_empty_pred` captured inside
`Queue::waitToPop` (queue.hpp lines 313-320).  Note that the source tests
`m_open_push`, the PUSH side flag, not `m_open_pop`. -/
def popWaitPred (s : QueueState A) : Bool :=
  if s.openPushFlag = false ∨ s.status ≠ Status.EMPTY then true else false

/-- Result of one `Wait::waitFor` call. -/
inductive WaitOutcome where
  | SUCCESS
  | TIMEOUT
  | NEVER
deriving DecidableEq, Repr

/-- Modelled from the spec: the wait primitive (`wait.hpp`, included by
queue.hpp but not present under the sources) blocks the caller until the
predicate returns true or the timeout elapses, returning SUCCESS exactly
when the predicate was observed true (spec 4.1); the sentinel WAIT_FOREVER
(modelled as `none`) disables the timeout.  In a quiescent state, where no
other thread mutates the queue between the predicate evaluations, the
predicate value never changes: the call returns SUCCESS when the predicate
holds, otherwise it times out (finite timeout) or never returns
(WAIT_FOREVER), the latter modelled as `NEVER`. -/
def waitForSeq (timeout : Option Nat) (pred : Bool) : WaitOutcome :=
  if pred then WaitOutcome.SUCCESS
  else
    match timeout with
    | some _ => WaitOutcome.TIMEOUT
    | none => WaitOutcome.NEVER

/-- `Queue::waitToPush` (queue.hpp lines 278-304) in a quiescent state:
fail when the push side is closed; when FULL with NO_DISCARD, wait on
`pushWaitPred`; after the wait, fail unless the wait succeeded and push is
still open.  `none` models a call that never returns. -/
def waitToPush (s : QueueState A) (timeout : Option Nat) : Option Bool :=
  if s.openPushFlag = false then some false
  else if s.status = Status.FULL ∧ s.settings.discard = Discard.NO_DISCARD then
    match waitForSeq timeout (pushWaitPred s) with
    | WaitOutcome.NEVER => none
    | WaitOutcome.TIMEOUT => some false
    | WaitOutcome.SUCCESS => if s.openPushFlag = false then some false else some true
  else some true

/-- `Queue::waitToPop` (queue.hpp lines 305-331) in a quiescent state:
fail when the pop side is closed; when EMPTY, wait on `popWaitPred`; after
the wait, fail unless the wait succeeded and pop is still open. -/
def waitToPop (s : QueueState A) (timeout : Option Nat) : Option Bool :=
  if s.openPopFlag = false then some false
  else if s.status = Status.EMPTY then
    match waitForSeq timeout (popWaitPred s) with
    | WaitOutcome.NEVER => none
    | WaitOutcome.TIMEOUT => some false
    | WaitOutcome.SUCCESS => if s.openPopFlag = false then some false else some true
  else some true

/-- Result of a call: a normal return, a call that never returns, or
undefined behaviour. -/
inductive Outcome (B : Type) where
  | ret (v : B)
  | blocked
  | undef
deriving DecidableEq, Repr

/-- The body of `Queue::push` after `waitToPush` has returned true
(queue.hpp lines 182-200).  The returned triple is the boolean result, the
new state, and the list of values handed to the discarded callback by
`onDiscarded`. -/
def pushCore (s : QueueState A) (elem : A) : Outcome (Bool × QueueState A × List A) :=
  if s.status ≠ Status.FULL then Outcome.ret (true, pushWithLock s elem, [])
  else if s.settings.discard = Discard.DISCARD_NEWEST then
    Outcome.ret (false, s, [elem])
  else if s.settings.discard = Discard.DISCARD_OLDEST then
    match popWithLock s with
    | none => Outcome.undef
    | some p => Outcome.ret (true, p.2, [p.1])
  else Outcome.ret (false, s, [])

/-- `Queue::push` (queue.hpp lines 174-201). -/
def push (s : QueueState A) (elem : A) (timeout : Option Nat) :
    Outcome (Bool × QueueState A × List A) :=
  match waitToPush s timeout with
  | none => Outcome.blocked
  | some false => Outcome.ret (false, s, [])
  | some true => pushCore s elem

/-- `Queue::pop` (queue.hpp lines 203-212).  The triple is the boolean
result, the element written through the reference argument, and the new
state. -/
def pop (s : QueueState A) (timeout : Option Nat) :
    Outcome (Bool × Option A × QueueState A) :=
  match waitToPop s timeout with
  | none => Outcome.blocked
  | some false => Outcome.ret (false, none, s)
  | some true =>
    match popWithLock s with
    | none => Outcome.undef
    | some p => Outcome.ret (true, some p.1, p.2)

/-- One atomic operation of a producer, consumer or controller thread. -/
inductive Op (A : Type) where
  | push (v : A)
  | pop
  | openPush
  | closePush
  | openPop
  | closePop
deriving DecidableEq, Repr

/-- A run of the queue: the current state together with the histories of
successful pushes, successful pops, and discarded-callback invocations. -/
structure Trace (A : Type) where
  state : QueueState A
  pushedOk : List A
  poppedOk : List A
  discarded : List A
deriving DecidableEq, Repr

/-- The initial run: a freshly constructed queue and empty histories. -/
def initTrace (A : Type) (st : Settings) : Trace A :=
  { state := mkQueue A st, pushedOk := [], poppedOk := [], discarded := [] }

/-- Execute one operation.  Push and pop attempts use a finite timeout (a
blocked thread that is later woken re-checks the same state a later atomic
attempt would see).  `none` propagates a call that blocks forever or runs
into undefined behaviour. -/
def step (t : Trace A) : Op A → Option (Trace A)
  | Op.push v =>
    match push t.state v (some 0) with
    | Outcome.ret r =>
      some { state := r.2.1
           , pushedOk := if r.1 then t.pushedOk ++ [v] else t.pushedOk
           , poppedOk := t.poppedOk
           , discarded := t.discarded ++ r.2.2 }
    | _ => none
  | Op.pop =>
    match pop t.state (some 0) with
    | Outcome.ret r =>
      some { state := r.2.2
           , pushedOk := t.pushedOk
           , poppedOk := t.poppedOk ++ r.2.1.toList
           , discarded := t.discarded }
    | _ => none
  | Op.openPush => some { t with state := openPush t.state }
  | Op.closePush => some { t with state := closePush t.state }
  | Op.openPop => some { t with state := openPop t.state }
  | Op.closePop => some { t with state := closePop t.state }

/-- Execute a sequence of operations. -/
def run (t : Trace A) : List (Op A) → Option (Trace A)
  | [] => some t
  | op :: ops =>
    match step t op with
    | none => none
    | some t2 => run t2 ops

/-- The cached `m_size` and `m_status` agree with the deque: this holds
after construction and after every mutation, since both go through
`updateStatus`. -/
def Consistent (s : QueueState A) : Prop :=
  s.size = s.queue.length ∧ s.status = derivedStatus s.queue.length s.settings.size

/-- Capacity 2, DISCARD_OLDEST, no admission control. -/
def stOldest : Settings :=
  { discard := Discard.DISCARD_OLDEST, control := Control.NO_CONTROL, size := 2 }

/-- Capacity 2, DISCARD_NEWEST, no admission control. -/
def stNewest : Settings :=
  { discard := Discard.DISCARD_NEWEST, control := Control.NO_CONTROL, size := 2 }

/-- Capacity 0, NO_DISCARD, no admission control. -/
def stZeroCap : Settings :=
  { discard := Discard.NO_DISCARD, control := Control.NO_CONTROL, size := 0 }

/-- Capacity 2, NO_DISCARD, full admission control. -/
def stFullCtrl : Settings :=
  { discard := Discard.NO_DISCARD, control := Control.FULL_CONTROL, size := 2 }

/-- Capacity 1, NO_DISCARD, no admission control. -/
def stOne : Settings :=
  { discard := Discard.NO_DISCARD, control := Control.NO_CONTROL, size := 1 }

/-- Capacity 2, NO_DISCARD, no admission control. -/
def stTwo : Settings :=
  { discard := Discard.NO_DISCARD, control := Control.NO_CONTROL, size := 2 }

/-- A full capacity-2 queue holding [8, 9]. -/
def twoElemState : QueueState Nat :=
  { settings := stTwo, queue := [8, 9], size := 2, status := Status.FULL
  , openPushFlag := true, openPopFlag := true }

/-- The state after popping 8 from `twoElemState`. -/
def oneElemState : QueueState Nat :=
  { settings := stTwo, queue := [9], size := 1, status := Status.NORMAL
  , openPushFlag := true, openPopFlag := true }

/-- The run reaching a full capacity-1 queue by a single push of 4. -/
def capOneTrace : Trace Nat :=
  { state := { settings := stOne, queue := [4], size := 1, status := Status.FULL
             , openPushFlag := true, openPopFlag := true }
  , pushedOk := [4], poppedOk := [], discarded := [] }

/-- The run push 1, push 2, pop, pop on a capacity-2 queue. -/
def drainedTrace : Trace Nat :=
  { state := { settings := stTwo, queue := [], size := 0, status := Status.EMPTY
             , openPushFlag := true, openPopFlag := true }
  , pushedOk := [1, 2], poppedOk := [1, 2], discarded := [] }

/-- The run closePush (a no-op under NO_CONTROL), push 1 on a capacity-2
queue. -/
def noControlTrace : Trace Nat :=
  { state := { settings := stTwo, queue := [1], size := 1, status := Status.NORMAL
             , openPushFlag := true, openPopFlag := true }
  , pushedOk := [1], poppedOk := [], discarded := [] }

/-- FIFO run invariant: the successfully popped values followed by the
current contents form a sublist of the successfully pushed values. -/
def FifoInv (t : Trace A) : Prop :=
  List.Sublist (t.poppedOk ++ t.state.queue) t.pushedOk

/-- Capacity run invariant for a NO_DISCARD queue: the settings are the
construction settings, the cached size and status agree with the deque,
and the element count never exceeds the capacity. -/
def BoundInv (st : Settings) (t : Trace A) : Prop :=
  t.state.settings = st ∧ Consistent t.state ∧ t.state.queue.length ≤ st.size

/-- Run invariant for a NO_CONTROL queue: the settings are the
construction settings and both admission flags are true. -/
def OpenInv (st : Settings) (t : Trace A) : Prop :=
  t.state.settings = st ∧ t.state.openPushFlag = true ∧ t.state.openPopFlag = true

theorem updateStatus_consistent (s : QueueState A) : Consistent (updateStatus s) :=
  ⟨rfl, rfl⟩

theorem pushWithLock_queue (s : QueueState A) (v : A) :
    (pushWithLock s v).queue = s.queue ++ [v] := rfl

theorem pushWithLock_settings (s : QueueState A) (v : A) :
    (pushWithLock s v).settings = s.settings := rfl

theorem pushWithLock_openPushFlag (s : QueueState A) (v : A) :
    (pushWithLock s v).openPushFlag = s.openPushFlag := rfl

theorem pushWithLock_openPopFlag (s : QueueState A) (v : A) :
    (pushWithLock s v).openPopFlag = s.openPopFlag := rfl

theorem pushWithLock_consistent (s : QueueState A) (v : A) :
    Consistent (pushWithLock s v) := updateStatus_consistent _

theorem openPush_shape (s : QueueState A) :
    openPush s = s ∨ openPush s = { s with openPushFlag := true } := by
  unfold openPush
  split
  · exact Or.inr rfl
  · exact Or.inl rfl

theorem closePush_shape (s : QueueState A) :
    closePush s = s ∨ closePush s = { s with openPushFlag := false } := by
  unfold closePush
  split
  · exact Or.inr rfl
  · exact Or.inl rfl

theorem openPop_shape (s : QueueState A) :
    openPop s = s ∨ openPop s = { s with openPopFlag := true } := by
  unfold openPop
  split
  · exact Or.inr rfl
  · exact Or.inl rfl

theorem closePop_shape (s : QueueState A) :
    closePop s = s ∨ closePop s = { s with openPopFlag := false } := by
  unfold closePop
  split
  · exact Or.inr rfl
  · exact Or.inl rfl

theorem popWithLock_some (s : QueueState A) (x : A) (s2 : QueueState A)
    (h : popWithLock s = some (x, s2)) :
    s.queue = x :: s2.queue ∧ s2.settings = s.settings ∧
    s2.openPushFlag = s.openPushFlag ∧ s2.openPopFlag = s.openPopFlag ∧
    Consistent s2 := by
  cases hq : s.queue with
  | nil =>
    unfold popWithLock at h
    rw [hq] at h
    cases h
  | cons a rest =>
    unfold popWithLock at h
    rw [hq] at h
    have ha : a = x := congrArg Prod.fst (Option.some.inj h)
    have hs2 : updateStatus { s with queue := rest } = s2 :=
      congrArg Prod.snd (Option.some.inj h)
    subst ha
    subst hs2
    exact ⟨rfl, rfl, rfl, rfl, updateStatus_consistent _⟩

theorem waitToPush_closed (s : QueueState A) (tm : Option Nat)
    (h : s.openPushFlag = false) : waitToPush s tm = some false := by
  unfold waitToPush
  rw [if_pos h]

theorem waitToPush_avail (s : QueueState A) (tm : Option Nat)
    (h : s.openPushFlag = true)
    (h2 : ¬(s.status = Status.FULL ∧ s.settings.discard = Discard.NO_DISCARD)) :
    waitToPush s tm = some true := by
  unfold waitToPush
  rw [if_neg (by simp [h]), if_neg h2]

theorem waitToPush_full_nodiscard (s : QueueState A)
    (h : s.openPushFlag = true) (h2 : s.status = Status.FULL)
    (h3 : s.settings.discard = Discard.NO_DISCARD) :
    (∀ m : Nat, waitToPush s (some m) = some false) ∧ waitToPush s none = none := by
  have hpred : pushWaitPred s = false := by
    unfold pushWaitPred
    rw [if_neg]
    push_neg
    exact ⟨by simp [h], by simp [h2]⟩
  constructor
  · intro m
    unfold waitToPush
    rw [if_neg (by simp [h]), if_pos ⟨h2, h3⟩]
    simp [waitForSeq, hpred]
  · unfold waitToPush
    rw [if_neg (by simp [h]), if_pos ⟨h2, h3⟩]
    simp [waitForSeq, hpred]

theorem waitToPush_some_true (s : QueueState A) (tm : Option Nat)
    (h : waitToPush s tm = some true) :
    s.openPushFlag = true ∧
    ¬(s.status = Status.FULL ∧ s.settings.discard = Discard.NO_DISCARD) := by
  by_cases h1 : s.openPushFlag = false
  · rw [waitToPush_closed s tm h1] at h
    cases h
  · have hopen : s.openPushFlag = true := by
      cases hb : s.openPushFlag
      · exact absurd hb h1
      · rfl
    by_cases h2 : s.status = Status.FULL ∧ s.settings.discard = Discard.NO_DISCARD
    · obtain ⟨hw1, hw2⟩ := waitToPush_full_nodiscard s hopen h2.1 h2.2
      cases tm with
      | none => rw [hw2] at h; cases h
      | some m => rw [hw1 m] at h; cases h
    · exact ⟨hopen, h2⟩

theorem waitToPop_closed (s : QueueState A) (tm : Option Nat)
    (h : s.openPopFlag = false) : waitToPop s tm = some false := by
  unfold waitToPop
  rw [if_pos h]

theorem waitToPop_not_empty (s : QueueState A) (tm : Option Nat)
    (h : s.openPopFlag = true) (h2 : s.status ≠ Status.EMPTY) :
    waitToPop s tm = some true := by
  unfold waitToPop
  rw [if_neg (by simp [h]), if_neg h2]

theorem push_ret_false (s : QueueState A) (v : A) (tm : Option Nat)
    (s2 : QueueState A) (d : List A)
    (h : push s v tm = Outcome.ret (false, s2, d)) : s2 = s := by
  unfold push at h
  split at h
  · exact Outcome.noConfusion h
  · exact (congrArg Prod.fst (congrArg Prod.snd (Outcome.ret.inj h))).symm
  · unfold pushCore at h
    split at h
    · cases (congrArg Prod.fst (Outcome.ret.inj h))
    · split at h
      · exact (congrArg Prod.fst (congrArg Prod.snd (Outcome.ret.inj h))).symm
      · split at h
        · split at h
          · exact Outcome.noConfusion h
          · cases (congrArg Prod.fst (Outcome.ret.inj h))
        · exact (congrArg Prod.fst (congrArg Prod.snd (Outcome.ret.inj h))).symm

theorem push_ret_true (s : QueueState A) (v : A) (tm : Option Nat)
    (s2 : QueueState A) (d : List A)
    (h : push s v tm = Outcome.ret (true, s2, d)) :
    (s.status ≠ Status.FULL ∧ s2 = pushWithLock s v ∧ d = []) ∨
    (s.status = Status.FULL ∧ s.settings.discard = Discard.DISCARD_OLDEST ∧
      ∃ x, popWithLock s = some (x, s2) ∧ d = [x]) := by
  unfold push at h
  split at h
  · exact Outcome.noConfusion h
  · cases (congrArg Prod.fst (Outcome.ret.inj h))
  · unfold pushCore at h
    split at h
    · rename_i hnf
      exact Or.inl ⟨hnf, (congrArg Prod.fst (congrArg Prod.snd (Outcome.ret.inj h))).symm,
        (congrArg Prod.snd (congrArg Prod.snd (Outcome.ret.inj h))).symm⟩
    · rename_i hnf
      have hfull : s.status = Status.FULL := by
        cases hst : s.status <;> simp [hst] at hnf ⊢
      split at h
      · cases (congrArg Prod.fst (Outcome.ret.inj h))
      · split at h
        · rename_i hold
          split at h
          · exact Outcome.noConfusion h
          · rename_i p hp
            refine Or.inr ⟨hfull, hold, p.1, ?_, ?_⟩
            · have hs2 : p.2 = s2 :=
                congrArg Prod.fst (congrArg Prod.snd (Outcome.ret.inj h))
              rw [← hs2]
              exact hp
            · exact (congrArg Prod.snd (congrArg Prod.snd (Outcome.ret.inj h))).symm
        · cases (congrArg Prod.fst (Outcome.ret.inj h))

theorem pop_ret_false (s : QueueState A) (tm : Option Nat)
    (vo : Option A) (s2 : QueueState A)
    (h : pop s tm = Outcome.ret (false, vo, s2)) : s2 = s ∧ vo = none := by
  unfold pop at h
  split at h
  · exact Outcome.noConfusion h
  · exact ⟨(congrArg Prod.snd (congrArg Prod.snd (Outcome.ret.inj h))).symm,
      (congrArg Prod.fst (congrArg Prod.snd (Outcome.ret.inj h))).symm⟩
  · split at h
    · exact Outcome.noConfusion h
    · cases (congrArg Prod.fst (Outcome.ret.inj h))

theorem pop_ret_true (s : QueueState A) (tm : Option Nat)
    (vo : Option A) (s2 : QueueState A)
    (h : pop s tm = Outcome.ret (true, vo, s2)) :
    ∃ x, vo = some x ∧ popWithLock s = some (x, s2) := by
  unfold pop at h
  split at h
  · exact Outcome.noConfusion h
  · cases (congrArg Prod.fst (Outcome.ret.inj h))
  · split at h
    · exact Outcome.noConfusion h
    · rename_i p hp
      refine ⟨p.1, (congrArg Prod.fst (congrArg Prod.snd (Outcome.ret.inj h))).symm, ?_⟩
      have hs2 : p.2 = s2 :=
        congrArg Prod.snd (congrArg Prod.snd (Outcome.ret.inj h))
      rw [← hs2]
      exact hp

theorem step_push_some (t : Trace A) (v : A) (t2 : Trace A)
    (h : step t (Op.push v) = some t2) :
    ∃ b s2 d, push t.state v (some 0) = Outcome.ret (b, s2, d) ∧
      t2 = { state := s2
           , pushedOk := if b then t.pushedOk ++ [v] else t.pushedOk
           , poppedOk := t.poppedOk
           , discarded := t.discarded ++ d } := by
  simp only [step] at h
  split at h
  · rename_i r hp
    exact ⟨r.1, r.2.1, r.2.2, hp, (Option.some.inj h).symm⟩
  · exact Option.noConfusion h

theorem step_pop_some (t : Trace A) (t2 : Trace A)
    (h : step t Op.pop = some t2) :
    ∃ b vo s2, pop t.state (some 0) = Outcome.ret (b, vo, s2) ∧
      t2 = { state := s2
           , pushedOk := t.pushedOk
           , poppedOk := t.poppedOk ++ vo.toList
           , discarded := t.discarded } := by
  simp only [step] at h
  split at h
  · rename_i r hp
    exact ⟨r.1, r.2.1, r.2.2, hp, (Option.some.inj h).symm⟩
  · exact Option.noConfusion h

theorem step_openPush_eq (t : Trace A) :
    step t Op.openPush = some { t with state := openPush t.state } := rfl

theorem step_closePush_eq (t : Trace A) :
    step t Op.closePush = some { t with state := closePush t.state } := rfl

theorem step_openPop_eq (t : Trace A) :
    step t Op.openPop = some { t with state := openPop t.state } := rfl

theorem step_closePop_eq (t : Trace A) :
    step t Op.closePop = some { t with state := closePop t.state } := rfl

theorem run_preserves (P : Trace A → Prop)
    (hstep : ∀ t op t2, P t → step t op = some t2 → P t2) :
    ∀ (ops : List (Op A)) (t t2 : Trace A), P t → run t ops = some t2 → P t2 := by
  intro ops
  induction ops with
  | nil =>
    intro t t2 h hr
    unfold run at hr
    cases hr
    exact h
  | cons op ops ih =>
    intro t t2 h hr
    unfold run at hr
    split at hr
    · exact Option.noConfusion hr
    · rename_i tm hs
      exact ih tm t2 (hstep t op tm h hs) hr

theorem run_preserves_avoiding (P : Trace A → Prop) (bad : Op A)
    (hstep : ∀ t op t2, op ≠ bad → P t → step t op = some t2 → P t2) :
    ∀ (ops : List (Op A)), bad ∉ ops →
      ∀ (t t2 : Trace A), P t → run t ops = some t2 → P t2 := by
  intro ops
  induction ops with
  | nil =>
    intro _ t t2 h hr
    unfold run at hr
    cases hr
    exact h
  | cons op ops ih =>
    intro hmem t t2 h hr
    have hop : op ≠ bad := fun he => hmem (he ▸ List.mem_cons_self op ops)
    have hrest : bad ∉ ops := fun he => hmem (List.mem_cons_of_mem op he)
    unfold run at hr
    split at hr
    · exact Option.noConfusion hr
    · rename_i tm hs
      exact ih hrest tm t2 (hstep t op tm hop h hs) hr

theorem step_fifo (t : Trace A) (op : Op A) (t2 : Trace A)
    (h : FifoInv t) (hs : step t op = some t2) : FifoInv t2 := by
  cases op with
  | push v =>
    obtain ⟨b, s2, d, hp, rfl⟩ := step_push_some t v t2 hs
    cases b with
    | false =>
      have he := push_ret_false t.state v (some 0) s2 d hp
      subst he
      simpa [FifoInv] using h
    | true =>
      rcases push_ret_true t.state v (some 0) s2 d hp with
        ⟨_, rfl, rfl⟩ | ⟨_, _, x, hpw, rfl⟩
      · unfold FifoInv at h ⊢
        simp only [if_pos, pushWithLock_queue]
        rw [← List.append_assoc]
        exact List.Sublist.append h (List.Sublist.refl [v])
      · obtain ⟨hq, _, _, _, _⟩ := popWithLock_some t.state x s2 hpw
        unfold FifoInv at h ⊢
        simp only [if_pos]
        have h1 : List.Sublist (t.poppedOk ++ s2.queue) (t.poppedOk ++ t.state.queue) := by
          rw [hq]
          exact List.Sublist.append_left (List.sublist_cons_self x s2.queue) t.poppedOk
        exact (h1.trans h).trans (List.sublist_append_left _ _)
  | pop =>
    obtain ⟨b, vo, s2, hp, rfl⟩ := step_pop_some t t2 hs
    cases b with
    | false =>
      obtain ⟨he, rfl⟩ := pop_ret_false t.state (some 0) vo s2 hp
      subst he
      simpa [FifoInv] using h
    | true =>
      obtain ⟨x, rfl, hpw⟩ := pop_ret_true t.state (some 0) vo s2 hp
      obtain ⟨hq, _, _, _, _⟩ := popWithLock_some t.state x s2 hpw
      unfold FifoInv at h ⊢
      simp only [Option.toList_some]
      rw [List.append_assoc]
      simpa [hq] using h
  | openPush =>
    rw [step_openPush_eq] at hs
    cases hs
    rcases openPush_shape t.state with he | he <;> simp [FifoInv, he] <;> exact h
  | closePush =>
    rw [step_closePush_eq] at hs
    cases hs
    rcases closePush_shape t.state with he | he <;> simp [FifoInv, he] <;> exact h
  | openPop =>
    rw [step_openPop_eq] at hs
    cases hs
    rcases openPop_shape t.state with he | he <;> simp [FifoInv, he] <;> exact h
  | closePop =>
    rw [step_closePop_eq] at hs
    cases hs
    rcases closePop_shape t.state with he | he <;> simp [FifoInv, he] <;> exact h

theorem push_ret_true_open (s : QueueState A) (v : A) (tm : Option Nat)
    (s2 : QueueState A) (d : List A)
    (h : push s v tm = Outcome.ret (true, s2, d)) : s.openPushFlag = true := by
  unfold push at h
  split at h
  · exact Outcome.noConfusion h
  · cases (congrArg Prod.fst (Outcome.ret.inj h))
  · rename_i hw
    exact (waitToPush_some_true s tm hw).1

theorem waitToPop_some_true (s : QueueState A) (tm : Option Nat)
    (h : waitToPop s tm = some true) : s.openPopFlag = true := by
  by_cases h1 : s.openPopFlag = false
  · rw [waitToPop_closed s tm h1] at h
    cases h
  · cases hb : s.openPopFlag
    · exact absurd hb h1
    · rfl

theorem pop_ret_true_open (s : QueueState A) (tm : Option Nat)
    (vo : Option A) (s2 : QueueState A)
    (h : pop s tm = Outcome.ret (true, vo, s2)) : s.openPopFlag = true := by
  unfold pop at h
  split at h
  · exact Outcome.noConfusion h
  · cases (congrArg Prod.fst (Outcome.ret.inj h))
  · rename_i hw
    exact waitToPop_some_true s tm hw

theorem openPush_no_control (s : QueueState A)
    (h : pushControllable s.settings.control = false) : openPush s = s := by
  unfold openPush
  simp [h]

theorem closePush_no_control (s : QueueState A)
    (h : pushControllable s.settings.control = false) : closePush s = s := by
  unfold closePush
  simp [h]

theorem openPop_no_control (s : QueueState A)
    (h : popControllable s.settings.control = false) : openPop s = s := by
  unfold openPop
  simp [h]

theorem closePop_no_control (s : QueueState A)
    (h : popControllable s.settings.control = false) : closePop s = s := by
  unfold closePop
  simp [h]

theorem step_toggle_state (t : Trace A) (op : Op A) (t2 : Trace A)
    (hop : op = Op.openPush ∨ op = Op.closePush ∨ op = Op.openPop ∨ op = Op.closePop)
    (hs : step t op = some t2) :
    t2.pushedOk = t.pushedOk ∧ t2.poppedOk = t.poppedOk ∧ t2.discarded = t.discarded ∧
    t2.state.settings = t.state.settings ∧ t2.state.queue = t.state.queue ∧
    t2.state.size = t.state.size ∧ t2.state.status = t.state.status := by
  rcases hop with rfl | rfl | rfl | rfl
  · rw [step_openPush_eq] at hs
    cases hs
    rcases openPush_shape t.state with he | he <;>
      exact ⟨rfl, rfl, rfl, by rw [he], by rw [he], by rw [he], by rw [he]⟩
  · rw [step_closePush_eq] at hs
    cases hs
    rcases closePush_shape t.state with he | he <;>
      exact ⟨rfl, rfl, rfl, by rw [he], by rw [he], by rw [he], by rw [he]⟩
  · rw [step_openPop_eq] at hs
    cases hs
    rcases openPop_shape t.state with he | he <;>
      exact ⟨rfl, rfl, rfl, by rw [he], by rw [he], by rw [he], by rw [he]⟩
  · rw [step_closePop_eq] at hs
    cases hs
    rcases closePop_shape t.state with he | he <;>
      exact ⟨rfl, rfl, rfl, by rw [he], by rw [he], by rw [he], by rw [he]⟩

theorem step_bound (st : Settings) (hd : st.discard = Discard.NO_DISCARD)
    (hc : 1 ≤ st.size) (t : Trace A) (op : Op A) (t2 : Trace A)
    (h : BoundInv st t) (hs : step t op = some t2) : BoundInv st t2 := by
  obtain ⟨hset, hcons, hlen⟩ := h
  cases op with
  | push v =>
    obtain ⟨b, s2, d, hp, rfl⟩ := step_push_some t v t2 hs
    cases b with
    | false =>
      have he := push_ret_false t.state v (some 0) s2 d hp
      subst he
      exact ⟨hset, hcons, hlen⟩
    | true =>
      rcases push_ret_true t.state v (some 0) s2 d hp with
        ⟨hnf, rfl, _⟩ | ⟨_, hold, _, _, _⟩
      · refine ⟨(pushWithLock_settings t.state v) ▸ hset, pushWithLock_consistent _ _, ?_⟩
        have hlt : t.state.queue.length < st.size := by
          by_contra hge
          push_neg at hge
          apply hnf
          rw [hcons.2, hset]
          unfold derivedStatus
          rw [if_neg (by omega), if_pos (by omega)]
        have hql : (pushWithLock t.state v).queue = t.state.queue ++ [v] :=
          pushWithLock_queue t.state v
        rw [hql, List.length_append]
        simpa using hlt
      · rw [hset, hd] at hold
        cases hold
  | pop =>
    obtain ⟨b, vo, s2, hp, rfl⟩ := step_pop_some t t2 hs
    cases b with
    | false =>
      obtain ⟨he, _⟩ := pop_ret_false t.state (some 0) vo s2 hp
      subst he
      exact ⟨hset, hcons, hlen⟩
    | true =>
      obtain ⟨x, _, hpw⟩ := pop_ret_true t.state (some 0) vo s2 hp
      obtain ⟨hq, hset2, _, _, hcons2⟩ := popWithLock_some t.state x s2 hpw
      refine ⟨hset2.trans hset, hcons2, ?_⟩
      have hlen2 : t.state.queue.length = s2.queue.length + 1 := by
        rw [hq]
        rfl
      show s2.queue.length ≤ st.size
      omega
  | openPush =>
    obtain ⟨_, _, _, hse, hqu, hsz, hst⟩ :=
      step_toggle_state t Op.openPush t2 (Or.inl rfl) hs
    refine ⟨hse.trans hset, ?_, by rw [hqu]; exact hlen⟩
    unfold Consistent
    rw [hsz, hqu, hst, hse]
    exact hcons
  | closePush =>
    obtain ⟨_, _, _, hse, hqu, hsz, hst⟩ :=
      step_toggle_state t Op.closePush t2 (Or.inr (Or.inl rfl)) hs
    refine ⟨hse.trans hset, ?_, by rw [hqu]; exact hlen⟩
    unfold Consistent
    rw [hsz, hqu, hst, hse]
    exact hcons
  | openPop =>
    obtain ⟨_, _, _, hse, hqu, hsz, hst⟩ :=
      step_toggle_state t Op.openPop t2 (Or.inr (Or.inr (Or.inl rfl))) hs
    refine ⟨hse.trans hset, ?_, by rw [hqu]; exact hlen⟩
    unfold Consistent
    rw [hsz, hqu, hst, hse]
    exact hcons
  | closePop =>
    obtain ⟨_, _, _, hse, hqu, hsz, hst⟩ :=
      step_toggle_state t Op.closePop t2 (Or.inr (Or.inr (Or.inr rfl))) hs
    refine ⟨hse.trans hset, ?_, by rw [hqu]; exact hlen⟩
    unfold Consistent
    rw [hsz, hqu, hst, hse]
    exact hcons

theorem step_open (st : Settings) (hc : st.control = Control.NO_CONTROL)
    (t : Trace A) (op : Op A) (t2 : Trace A)
    (h : OpenInv st t) (hs : step t op = some t2) : OpenInv st t2 := by
  obtain ⟨hset, hpu, hpo⟩ := h
  have hpc : pushControllable t.state.settings.control = false := by
    rw [hset, hc]
    rfl
  have hoc : popControllable t.state.settings.control = false := by
    rw [hset, hc]
    rfl
  cases op with
  | push v =>
    obtain ⟨b, s2, d, hp, rfl⟩ := step_push_some t v t2 hs
    cases b with
    | false =>
      have he := push_ret_false t.state v (some 0) s2 d hp
      subst he
      exact ⟨hset, hpu, hpo⟩
    | true =>
      rcases push_ret_true t.state v (some 0) s2 d hp with
        ⟨_, rfl, _⟩ | ⟨_, _, x, hpw, _⟩
      · exact ⟨(pushWithLock_settings t.state v) ▸ hset,
          (pushWithLock_openPushFlag t.state v) ▸ hpu,
          (pushWithLock_openPopFlag t.state v) ▸ hpo⟩
      · obtain ⟨_, hset2, hf1, hf2, _⟩ := popWithLock_some t.state x s2 hpw
        exact ⟨hset2.trans hset, hf1.trans hpu, hf2.trans hpo⟩
  | pop =>
    obtain ⟨b, vo, s2, hp, rfl⟩ := step_pop_some t t2 hs
    cases b with
    | false =>
      obtain ⟨he, _⟩ := pop_ret_false t.state (some 0) vo s2 hp
      subst he
      exact ⟨hset, hpu, hpo⟩
    | true =>
      obtain ⟨x, _, hpw⟩ := pop_ret_true t.state (some 0) vo s2 hp
      obtain ⟨_, hset2, hf1, hf2, _⟩ := popWithLock_some t.state x s2 hpw
      exact ⟨hset2.trans hset, hf1.trans hpu, hf2.trans hpo⟩
  | openPush =>
    rw [step_openPush_eq] at hs
    cases hs
    have he := openPush_no_control t.state hpc
    exact ⟨by rw [he]; exact hset, by rw [he]; exact hpu, by rw [he]; exact hpo⟩
  | closePush =>
    rw [step_closePush_eq] at hs
    cases hs
    have he := closePush_no_control t.state hpc
    exact ⟨by rw [he]; exact hset, by rw [he]; exact hpu, by rw [he]; exact hpo⟩
  | openPop =>
    rw [step_openPop_eq] at hs
    cases hs
    have he := openPop_no_control t.state hoc
    exact ⟨by rw [he]; exact hset, by rw [he]; exact hpu, by rw [he]; exact hpo⟩
  | closePop =>
    rw [step_closePop_eq] at hs
    cases hs
    have he := closePop_no_control t.state hoc
    exact ⟨by rw [he]; exact hset, by rw [he]; exact hpu, by rw [he]; exact hpo⟩

theorem step_push_side_stays_closed (t : Trace A) (op : Op A) (t2 : Trace A)
    (hop : op ≠ Op.openPush) (h : t.state.openPushFlag = false)
    (hs : step t op = some t2) : t2.state.openPushFlag = false := by
  cases op with
  | push v =>
    obtain ⟨b, s2, d, hp, rfl⟩ := step_push_some t v t2 hs
    cases b with
    | false =>
      have he := push_ret_false t.state v (some 0) s2 d hp
      subst he
      exact h
    | true =>
      have := push_ret_true_open t.state v (some 0) s2 d hp
      rw [h] at this
      cases this
  | pop =>
    obtain ⟨b, vo, s2, hp, rfl⟩ := step_pop_some t t2 hs
    cases b with
    | false =>
      obtain ⟨he, _⟩ := pop_ret_false t.state (some 0) vo s2 hp
      subst he
      exact h
    | true =>
      obtain ⟨x, _, hpw⟩ := pop_ret_true t.state (some 0) vo s2 hp
      obtain ⟨_, _, hf1, _, _⟩ := popWithLock_some t.state x s2 hpw
      exact hf1.trans h
  | openPush => exact absurd rfl hop
  | closePush =>
    rw [step_closePush_eq] at hs
    cases hs
    rcases closePush_shape t.state with he | he
    · rw [he]
      exact h
    · rw [he]
  | openPop =>
    rw [step_openPop_eq] at hs
    cases hs
    rcases openPop_shape t.state with he | he <;> rw [he] <;> exact h
  | closePop =>
    rw [step_closePop_eq] at hs
    cases hs
    rcases closePop_shape t.state with he | he <;> rw [he] <;> exact h

theorem step_pop_side_stays_closed (t : Trace A) (op : Op A) (t2 : Trace A)
    (hop : op ≠ Op.openPop) (h : t.state.openPopFlag = false)
    (hs : step t op = some t2) : t2.state.openPopFlag = false := by
  cases op with
  | push v =>
    obtain ⟨b, s2, d, hp, rfl⟩ := step_push_some t v t2 hs
    cases b with
    | false =>
      have he := push_ret_false t.state v (some 0) s2 d hp
      subst he
      exact h
    | true =>
      rcases push_ret_true t.state v (some 0) s2 d hp with
        ⟨_, rfl, _⟩ | ⟨_, _, x, hpw, _⟩
      · exact (pushWithLock_openPopFlag t.state v).trans h
      · obtain ⟨_, _, _, hf2, _⟩ := popWithLock_some t.state x s2 hpw
        exact hf2.trans h
  | pop =>
    obtain ⟨b, vo, s2, hp, rfl⟩ := step_pop_some t t2 hs
    cases b with
    | false =>
      obtain ⟨he, _⟩ := pop_ret_false t.state (some 0) vo s2 hp
      subst he
      exact h
    | true =>
      have := pop_ret_true_open t.state (some 0) vo s2 hp
      rw [h] at this
      cases this
  | openPop => exact absurd rfl hop
  | closePop =>
    rw [step_closePop_eq] at hs
    cases hs
    rcases closePop_shape t.state with he | he
    · rw [he]
      exact h
    · rw [he]
  | openPush =>
    rw [step_openPush_eq] at hs
    cases hs
    rcases openPush_shape t.state with he | he <;> rw [he] <;> exact h
  | closePush =>
    rw [step_closePush_eq] at hs
    cases hs
    rcases closePush_shape t.state with he | he <;> rw [he] <;> exact h

theorem push_full_nodiscard_fails (s : QueueState A) (v : A)
    (hfull : s.status = Status.FULL)
    (hd : s.settings.discard = Discard.NO_DISCARD) :
    (∀ m, push s v (some m) = Outcome.ret (false, s, [])) ∧
    (s.openPushFlag = true → push s v none = Outcome.blocked) := by
  constructor
  · intro m
    cases hb : s.openPushFlag
    · unfold push
      rw [waitToPush_closed s (some m) hb]
    · unfold push
      rw [(waitToPush_full_nodiscard s hb hfull hd).1 m]
  · intro hb
    unfold push
    rw [(waitToPush_full_nodiscard s hb hfull hd).2]

/-- C1: the claim demands that with DISCARD_OLDEST and capacity 2, after
push(1) and push(2), push(3) returns true, the discard callback receives 1
and the queue afterwards is exactly [2, 3] with size 2.  On the source the
first three facts hold, but `Queue::push` (lines 194-199) only evicts the
oldest element and never inserts the new one: the queue ends as [2] with
size 1, not [2, 3] with size 2. -/
theorem c1_discard_oldest_loses_new_element :
    (run (initTrace Nat stOldest) [Op.push 1, Op.push 2, Op.push 3]).map
        (fun t => (t.pushedOk, t.discarded, t.state.queue, t.state.size)) =
      some ([1, 2, 3], [1], [2], 1) ∧
    (run (initTrace Nat stOldest) [Op.push 1, Op.push 2, Op.push 3]).map
        (fun t => decide (t.state.queue = [2, 3] ∧ t.state.size = 2)) =
      some false := by
  decide

/-- C2: the claim demands that the predicate guarding the empty-queue wait
in pop watch the pop-open flag, so that closing the pop side makes the
predicate true.  The source predicate (`closed_or_not_empty_pred`,
queue.hpp line 315) tests `m_open_push` instead: on an empty queue with
push open, the predicate is false whether pop is open, never opened or
explicitly closed, while closing the push side (which the claim says is
irrelevant) is what makes it true. -/
theorem c2_pop_wait_pred_watches_push_flag :
    popWaitPred (openPush (mkQueue Nat stFullCtrl)) = false ∧
    popWaitPred (openPop (openPush (mkQueue Nat stFullCtrl))) = false ∧
    popWaitPred (closePop (openPop (openPush (mkQueue Nat stFullCtrl)))) = false ∧
    popWaitPred (closePush (openPop (mkQueue Nat stFullCtrl))) = true ∧
    (∀ s : QueueState Nat, popWaitPred (openPop s) = popWaitPred s) ∧
    (∀ s : QueueState Nat, popWaitPred (closePop s) = popWaitPred s) := by
  refine ⟨by decide, by decide, by decide, by decide, ?_, ?_⟩
  · intro s
    unfold openPop
    split <;> rfl
  · intro s
    unfold closePop
    split <;> rfl

/-- C3 counterexample: the claim states that with capacity 0 and
NO_DISCARD every push blocks until closure or timeout and never enqueues,
in particular the very first push does not succeed.  On the source the
first push succeeds and enqueues: `updateStatus` classifies size 0 as
EMPTY before checking fullness, so the fresh queue is not FULL and
`push` takes the non-full fast path, for any timeout. -/
theorem c3_zero_capacity_first_push_succeeds :
    push (mkQueue Nat stZeroCap) 5 (some 0) =
      Outcome.ret (true, pushWithLock (mkQueue Nat stZeroCap) 5, []) ∧
    push (mkQueue Nat stZeroCap) 5 none =
      Outcome.ret (true, pushWithLock (mkQueue Nat stZeroCap) 5, []) ∧
    (pushWithLock (mkQueue Nat stZeroCap) 5).queue = [5] ∧
    (pushWithLock (mkQueue Nat stZeroCap) 5).size = 1 := by
  decide

/-- C4: with DISCARD_NEWEST and capacity 2, push(1) and push(2) succeed,
push(3) with timeout 0 returns false with the discard callback invoked
with 3 exactly once and the queue still [1, 2], and the subsequent pops
return 1 then 2. -/
theorem c4_discard_newest_rejects_new_element :
    (run (initTrace Nat stNewest) [Op.push 1, Op.push 2, Op.push 3]).map
        (fun t => (t.pushedOk, t.discarded, t.state.queue)) =
      some ([1, 2], [3], [1, 2]) ∧
    (run (initTrace Nat stNewest) [Op.push 1, Op.push 2, Op.push 3, Op.pop, Op.pop]).map
        (fun t => (t.pushedOk, t.poppedOk, t.discarded, t.state.queue)) =
      some ([1, 2], [1, 2], [3], []) := by
  decide

theorem push_not_full (s : QueueState A) (v : A) (tm : Option Nat)
    (hopen : s.openPushFlag = true) (hnf : s.status ≠ Status.FULL) :
    push s v tm = Outcome.ret (true, pushWithLock s v, []) := by
  unfold push
  rw [waitToPush_avail s tm hopen (fun hc => hnf hc.1)]
  show pushCore s v = _
  unfold pushCore
  rw [if_pos hnf]

/-- C3 (amended): with capacity 0, NO_DISCARD and the push side open, the
very first push on the empty queue succeeds and enqueues the element,
because `updateStatus` classifies size 0 as EMPTY, never FULL; once the
queue is nonempty its status is FULL, and from then on every push never
enqueues: with any finite timeout it fails after the timeout, and with
WAIT_FOREVER it blocks (in a concurrent execution, until the push side is
closed or an element is popped). -/
theorem c3_zero_capacity_push_behaviour (s : QueueState Nat) (v : Nat)
    (hcap : s.settings.size = 0) (hd : s.settings.discard = Discard.NO_DISCARD)
    (hcons : Consistent s) (hopen : s.openPushFlag = true) :
    (s.queue = [] →
      ∀ tm, push s v tm = Outcome.ret (true, pushWithLock s v, []) ∧
        (pushWithLock s v).queue = [v]) ∧
    (s.queue ≠ [] →
      (∀ m, push s v (some m) = Outcome.ret (false, s, [])) ∧
      push s v none = Outcome.blocked) := by
  constructor
  · intro hq tm
    have hst : s.status = Status.EMPTY := by
      rw [hcons.2, hq]
      rfl
    refine ⟨push_not_full s v tm hopen (by rw [hst]; decide), ?_⟩
    rw [pushWithLock_queue, hq]
    rfl
  · intro hq
    have hlen : s.queue.length ≠ 0 := fun h0 => hq (List.eq_nil_of_length_eq_zero h0)
    have hst : s.status = Status.FULL := by
      rw [hcons.2, hcap]
      unfold derivedStatus
      rw [if_neg (by omega), if_pos (by omega)]
    exact ⟨(push_full_nodiscard_fails s v hst hd).1,
      (push_full_nodiscard_fails s v hst hd).2 hopen⟩

theorem c3_zero_capacity_push_behaviour_witness :
    (Consistent (mkQueue Nat stZeroCap) ∧
     (mkQueue Nat stZeroCap).openPushFlag = true) ∧
    (push (mkQueue Nat stZeroCap) 9 (some 0) =
       Outcome.ret (true, pushWithLock (mkQueue Nat stZeroCap) 9, []) ∧
     (pushWithLock (mkQueue Nat stZeroCap) 9).queue = [9]) :=
  ⟨⟨⟨rfl, rfl⟩, by decide⟩,
   (c3_zero_capacity_push_behaviour (mkQueue Nat stZeroCap) 9 (by decide) (by decide)
     ⟨rfl, rfl⟩ (by decide)).1 (by decide) (some 0)⟩

/-- C5 counterexample: the claim quantifies over every capacity C, but a
queue constructed with capacity 0 and NO_DISCARD reaches a state holding 1
element (size exceeds capacity), because a size of 0 is classified EMPTY,
not FULL, and the first push therefore enqueues. -/
theorem c5_zero_capacity_exceeds_bound :
    (run (initTrace Nat stZeroCap) [Op.push 5]).map
        (fun t => (t.state.queue.length, t.pushedOk)) = some (1, [5]) ∧
    stZeroCap.size = 0 := by
  decide

/-- C5 (amended): for every queue with discard NO_DISCARD and capacity
C at least 1, every reachable state holds at most C elements (and the
cached size equals the element count, so 0 <= size <= C); in a state
holding exactly C elements a push does not enqueue: it returns false with
the state unchanged for any finite timeout, and blocks forever with
WAIT_FOREVER while the push side is open (in a concurrent execution, until
a pop frees a slot or the side is closed). -/
theorem c5_capacity_bound (st : Settings) (hd : st.discard = Discard.NO_DISCARD)
    (hc : 1 ≤ st.size) (ops : List (Op Nat)) (t : Trace Nat)
    (h : run (initTrace Nat st) ops = some t) :
    t.state.size = t.state.queue.length ∧
    t.state.queue.length ≤ st.size ∧
    (∀ v, t.state.queue.length = st.size →
      (∀ m, push t.state v (some m) = Outcome.ret (false, t.state, [])) ∧
      (t.state.openPushFlag = true → push t.state v none = Outcome.blocked)) := by
  have hinit : BoundInv st (initTrace Nat st) := by
    refine ⟨rfl, ⟨rfl, rfl⟩, ?_⟩
    show (0 : Nat) ≤ st.size
    omega
  have hinv := run_preserves (BoundInv st)
    (fun t1 op t2 h1 hs => step_bound st hd hc t1 op t2 h1 hs)
    ops (initTrace Nat st) t hinit h
  obtain ⟨hset, hcons, hlen⟩ := hinv
  refine ⟨hcons.1, hlen, ?_⟩
  intro v hfull
  have hst : t.state.status = Status.FULL := by
    rw [hcons.2, hset, hfull]
    unfold derivedStatus
    rw [if_neg (by omega), if_pos (by omega)]
  have hdd : t.state.settings.discard = Discard.NO_DISCARD := by
    rw [hset, hd]
  exact ⟨(push_full_nodiscard_fails t.state v hst hdd).1,
    (push_full_nodiscard_fails t.state v hst hdd).2⟩

theorem c5_capacity_bound_witness :
    (stOne.discard = Discard.NO_DISCARD ∧ 1 ≤ stOne.size ∧
     run (initTrace Nat stOne) [Op.push 4] = some capOneTrace ∧
     capOneTrace.state.queue.length = stOne.size) ∧
    (capOneTrace.state.size = capOneTrace.state.queue.length ∧
     capOneTrace.state.queue.length ≤ stOne.size ∧
     push capOneTrace.state 6 (some 0) = Outcome.ret (false, capOneTrace.state, [])) :=
  ⟨⟨by decide, by decide, by decide, by decide⟩,
   ⟨(c5_capacity_bound stOne (by decide) (by decide) [Op.push 4] capOneTrace (by decide)).1,
    (c5_capacity_bound stOne (by decide) (by decide) [Op.push 4] capOneTrace (by decide)).2.1,
    ((c5_capacity_bound stOne (by decide) (by decide) [Op.push 4] capOneTrace
       (by decide)).2.2 6 (by decide)).1 0⟩⟩

/-- C6: in every run of the queue (any settings) in which the number of
successful pushes equals the number of successful pops, the sequence of
popped values is exactly the sequence of pushed values: the i-th
successful pop returns the i-th successfully pushed value. -/
theorem c6_fifo_order (st : Settings) (ops : List (Op Nat)) (t : Trace Nat)
    (h : run (initTrace Nat st) ops = some t)
    (hn : t.pushedOk.length = t.poppedOk.length) :
    t.poppedOk = t.pushedOk := by
  have hinv : FifoInv t :=
    run_preserves FifoInv (fun t1 op t2 h1 hs => step_fifo t1 op t2 h1 hs)
      ops (initTrace Nat st) t (List.nil_sublist []) h
  have hle := List.Sublist.length_le hinv
  rw [List.length_append] at hle
  have hq0 : t.state.queue.length = 0 := by omega
  have hqe : t.state.queue = [] := List.eq_nil_of_length_eq_zero hq0
  unfold FifoInv at hinv
  rw [hqe, List.append_nil] at hinv
  exact List.Sublist.eq_of_length hinv (by omega)

theorem c6_fifo_order_witness :
    (run (initTrace Nat stTwo) [Op.push 1, Op.push 2, Op.pop, Op.pop] = some drainedTrace ∧
     drainedTrace.pushedOk.length = drainedTrace.poppedOk.length) ∧
    drainedTrace.poppedOk = drainedTrace.pushedOk :=
  ⟨⟨by decide, by decide⟩,
   c6_fifo_order stTwo [Op.push 1, Op.push 2, Op.pop, Op.pop] drainedTrace
     (by decide) (by decide)⟩

/-- C7: after every structural mutation (enqueue via pushWithLock, dequeue
or eviction via popWithLock, both of which end in updateStatus) the status
is the pure function of the element count and the capacity computed by
derivedStatus: EMPTY at count 0, else FULL at count at least the capacity,
else NORMAL; the open flags never factor into it; and when both size and
capacity are 0 the implementation yields EMPTY (the EMPTY branch is
checked first). -/
theorem c7_status_pure_function (s : QueueState Nat) (v : Nat) :
    (pushWithLock s v).status = derivedStatus (s.queue.length + 1) s.settings.size ∧
    (∀ x s2, popWithLock s = some (x, s2) →
      s2.status = derivedStatus s2.queue.length s.settings.size) ∧
    (updateStatus s).status = derivedStatus s.queue.length s.settings.size ∧
    (∀ b c, (updateStatus { s with openPushFlag := b, openPopFlag := c }).status
        = (updateStatus s).status) ∧
    derivedStatus 0 0 = Status.EMPTY := by
  refine ⟨?_, ?_, rfl, fun b c => rfl, rfl⟩
  · show derivedStatus (s.queue ++ [v]).length s.settings.size = _
    rw [List.length_append]
    rfl
  · intro x s2 hp
    obtain ⟨_, hset2, _, _, hcons2⟩ := popWithLock_some s x s2 hp
    rw [hcons2.2, hset2]

theorem c7_status_pure_function_witness :
    popWithLock twoElemState = some (8, oneElemState) ∧
    oneElemState.status = derivedStatus oneElemState.queue.length twoElemState.settings.size :=
  ⟨by decide,
   (c7_status_pure_function twoElemState 7).2.1 8 oneElemState (by decide)⟩

/-- C8: with control NO_CONTROL both admission flags are true from
construction and in every reachable state; openPush, closePush, openPop
and closePop are identities on the state; and an admission check can only
fail for a structural reason, never a closed side: waitToPush only returns
false when the queue is FULL under NO_DISCARD, waitToPop only when the
queue is EMPTY. -/
theorem c8_no_control_permanently_open (st : Settings)
    (hc : st.control = Control.NO_CONTROL) (ops : List (Op Nat)) (t : Trace Nat)
    (h : run (initTrace Nat st) ops = some t) :
    (mkQueue Nat st).openPushFlag = true ∧ (mkQueue Nat st).openPopFlag = true ∧
    t.state.openPushFlag = true ∧ t.state.openPopFlag = true ∧
    openPush t.state = t.state ∧ closePush t.state = t.state ∧
    openPop t.state = t.state ∧ closePop t.state = t.state ∧
    (∀ tm, waitToPush t.state tm = some false →
      t.state.status = Status.FULL ∧ t.state.settings.discard = Discard.NO_DISCARD) ∧
    (∀ tm, waitToPop t.state tm = some false → t.state.status = Status.EMPTY) := by
  have hinit : OpenInv st (initTrace Nat st) := by
    refine ⟨rfl, ?_, ?_⟩
    · show (!pushControllable st.control) = true
      rw [hc]
      rfl
    · show (!popControllable st.control) = true
      rw [hc]
      rfl
  have hinv := run_preserves (OpenInv st)
    (fun t1 op t2 h1 hs => step_open st hc t1 op t2 h1 hs)
    ops (initTrace Nat st) t hinit h
  obtain ⟨hset, hpu, hpo⟩ := hinv
  have hpc : pushControllable t.state.settings.control = false := by
    rw [hset, hc]
    rfl
  have hoc : popControllable t.state.settings.control = false := by
    rw [hset, hc]
    rfl
  refine ⟨?_, ?_, hpu, hpo, openPush_no_control t.state hpc,
    closePush_no_control t.state hpc, openPop_no_control t.state hoc,
    closePop_no_control t.state hoc, ?_, ?_⟩
  · show (!pushControllable st.control) = true
    rw [hc]
    rfl
  · show (!popControllable st.control) = true
    rw [hc]
    rfl
  · intro tm hw
    by_contra hcon
    rw [waitToPush_avail t.state tm hpu hcon] at hw
    cases hw
  · intro tm hw
    by_contra hcon
    rw [waitToPop_not_empty t.state tm hpo hcon] at hw
    cases hw

theorem c8_no_control_permanently_open_witness :
    (stTwo.control = Control.NO_CONTROL ∧
     run (initTrace Nat stTwo) [Op.closePush, Op.push 1] = some noControlTrace) ∧
    (noControlTrace.state.openPushFlag = true ∧
     noControlTrace.state.openPopFlag = true ∧
     closePush noControlTrace.state = noControlTrace.state) :=
  ⟨⟨by decide, by decide⟩,
   ⟨(c8_no_control_permanently_open stTwo (by decide) [Op.closePush, Op.push 1]
       noControlTrace (by decide)).2.2.1,
    (c8_no_control_permanently_open stTwo (by decide) [Op.closePush, Op.push 1]
       noControlTrace (by decide)).2.2.2.1,
    (c8_no_control_permanently_open stTwo (by decide) [Op.closePush, Op.push 1]
       noControlTrace (by decide)).2.2.2.2.2.1⟩⟩

/-- C9: a side granted runtime control starts closed (the constructor
leaves its flag false); while a side's flag is false, the corresponding
operation fails immediately for every timeout, with the state unchanged,
nothing enqueued or dequeued and no discard callback; closePush and
closePop on a controllable side reset the flag to false; and in any run
that never calls openPush (respectively openPop) the controllable side's
flag stays false. -/
theorem c9_controlled_sides_start_closed (st : Settings) (s : QueueState Nat)
    (v : Nat) (tm : Option Nat) :
    (pushControllable st.control = true → (mkQueue Nat st).openPushFlag = false) ∧
    (popControllable st.control = true → (mkQueue Nat st).openPopFlag = false) ∧
    (s.openPushFlag = false → push s v tm = Outcome.ret (false, s, [])) ∧
    (s.openPopFlag = false → pop s tm = Outcome.ret (false, none, s)) ∧
    (pushControllable s.settings.control = true → (closePush s).openPushFlag = false) ∧
    (popControllable s.settings.control = true → (closePop s).openPopFlag = false) ∧
    (∀ ops t, Op.openPush ∉ ops → pushControllable st.control = true →
      run (initTrace Nat st) ops = some t → t.state.openPushFlag = false) ∧
    (∀ ops t, Op.openPop ∉ ops → popControllable st.control = true →
      run (initTrace Nat st) ops = some t → t.state.openPopFlag = false) := by
  refine ⟨?_, ?_, ?_, ?_, ?_, ?_, ?_, ?_⟩
  · intro hctl
    show (!pushControllable st.control) = false
    rw [hctl]
    rfl
  · intro hctl
    show (!popControllable st.control) = false
    rw [hctl]
    rfl
  · intro hb
    unfold push
    rw [waitToPush_closed s tm hb]
  · intro hb
    unfold pop
    rw [waitToPop_closed s tm hb]
  · intro hctl
    unfold closePush
    simp [hctl]
  · intro hctl
    unfold closePop
    simp [hctl]
  · intro ops t hmem hctl hr
    refine run_preserves_avoiding (fun t1 => t1.state.openPushFlag = false) Op.openPush
      (fun t1 op t2 hop h1 hs => step_push_side_stays_closed t1 op t2 hop h1 hs)
      ops hmem (initTrace Nat st) t ?_ hr
    show (!pushControllable st.control) = false
    rw [hctl]
    rfl
  · intro ops t hmem hctl hr
    refine run_preserves_avoiding (fun t1 => t1.state.openPopFlag = false) Op.openPop
      (fun t1 op t2 hop h1 hs => step_pop_side_stays_closed t1 op t2 hop h1 hs)
      ops hmem (initTrace Nat st) t ?_ hr
    show (!popControllable st.control) = false
    rw [hctl]
    rfl

theorem c9_controlled_sides_start_closed_witness :
    (pushControllable stFullCtrl.control = true ∧
     (mkQueue Nat stFullCtrl).openPushFlag = false) ∧
    push (mkQueue Nat stFullCtrl) 3 (some 0) =
      Outcome.ret (false, mkQueue Nat stFullCtrl, []) :=
  ⟨⟨by decide,
    (c9_controlled_sides_start_closed stFullCtrl (mkQueue Nat stFullCtrl) 3
       (some 0)).1 (by decide)⟩,
   (c9_controlled_sides_start_closed stFullCtrl (mkQueue Nat stFullCtrl) 3
      (some 0)).2.2.1 (by decide)⟩

/-- C10: errors are atomic: whenever push returns false (closed side,
timeout on a full NO_DISCARD queue, or DISCARD_NEWEST rejection) the state
is returned unchanged, and whenever pop returns false nothing was dequeued
and the state is returned unchanged, so the element sequence, the size and
the status after the call are those before it. -/
theorem c10_failed_call_leaves_state_unchanged (s : QueueState Nat) (v : Nat)
    (tm : Option Nat) :
    (∀ s2 d, push s v tm = Outcome.ret (false, s2, d) →
      s2.queue = s.queue ∧ s2.size = s.size ∧ s2.status = s.status ∧ s2 = s) ∧
    (∀ vo s2, pop s tm = Outcome.ret (false, vo, s2) →
      vo = none ∧ s2.queue = s.queue ∧ s2.size = s.size ∧ s2.status = s.status ∧ s2 = s) := by
  constructor
  · intro s2 d hp
    have he := push_ret_false s v tm s2 d hp
    exact ⟨by rw [he], by rw [he], by rw [he], he⟩
  · intro vo s2 hp
    obtain ⟨he, hv⟩ := pop_ret_false s tm vo s2 hp
    exact ⟨hv, by rw [he], by rw [he], by rw [he], he⟩

theorem c10_failed_call_leaves_state_unchanged_witness :
    push (mkQueue Nat stFullCtrl) 7 (some 0) =
      Outcome.ret (false, mkQueue Nat stFullCtrl, []) ∧
    ((mkQueue Nat stFullCtrl) : QueueState Nat).queue = (mkQueue Nat stFullCtrl).queue ∧
    ((mkQueue Nat stFullCtrl) : QueueState Nat).size = (mkQueue Nat stFullCtrl).size ∧
    ((mkQueue Nat stFullCtrl) : QueueState Nat).status = (mkQueue Nat stFullCtrl).status ∧
    (mkQueue Nat stFullCtrl : QueueState Nat) = mkQueue Nat stFullCtrl :=
  ⟨by decide,
   (c10_failed_call_leaves_state_unchanged (mkQueue Nat stFullCtrl) 7 (some 0)).1
     (mkQueue Nat stFullCtrl) [] (by decide)⟩

end TSQ
